import Mathlib

/-!
Verification of the event-driven control core of the Embedded-Software
repository (MH_Course_Project): the power-mode arbiter (sleep_routines.c),
the I2C bus transaction engine (i2c.c), the LEUART serial framing engines
(leuart.c) and the BLE ring buffer (ble.c), shallowly embedded in Lean.

Machine integers are modelled as `Nat` (or `Int` for the C `int` block
counts), with explicit wrap-around (`% 2 ^ 32`, masking with `&&&`) exactly
where the C code relies on it.  A C function that can hit `EFM_ASSERT(false)`
is modelled as returning `Option`, `none` being the fatal assertion.
-/

namespace EmbeddedSW

/-! ## Power-mode arbiter — sleep_routines.c

The C module keeps `static int lowest_energy_mode[MAX_ENERGY_MODES]`.
We model the table as a function `Fin 5 → Int` (C `int` entries). -/

abbrev MAX_ENERGY_MODES : Nat := 5

abbrev EnergyTable := Fin MAX_ENERGY_MODES → Int

/-- The function `sleep_open`: all energy modes initialized to 0 (allowed). -/
def sleep_open : EnergyTable := fun _ => 0

/-- The function `sleep_block_mode(EM)`: `lowest_energy_mode[EM]++` inside a critical
section.  (The trailing `EFM_ASSERT(lowest_energy_mode[EM] < 5)` is a sanity
bound check that does not mutate the table.) -/
def sleep_block_mode (EM : Fin 5) (t : EnergyTable) : EnergyTable :=
  Function.update t EM (t EM + 1)

/-- The function `sleep_unblock_mode(EM)`: decrements `lowest_energy_mode[EM]` only when
it is `> 0`, inside a critical section.  (The trailing
`EFM_ASSERT(lowest_energy_mode[EM] >= 0)` does not mutate the table.) -/
def sleep_unblock_mode (EM : Fin 5) (t : EnergyTable) : EnergyTable :=
  if t EM > 0 then Function.update t EM (t EM - 1) else t

/-- One `sleep_block_mode` or `sleep_unblock_mode` call. -/
inductive SleepOp where
  | block (EM : Fin 5)
  | unblock (EM : Fin 5)

/-- Apply one arbiter call to the table. -/
def sleep_apply (t : EnergyTable) : SleepOp → EnergyTable
  | .block EM => sleep_block_mode EM t
  | .unblock EM => sleep_unblock_mode EM t

/-- Run a sequence of arbiter calls from a given table. -/
def sleep_run : List SleepOp → EnergyTable → EnergyTable
  | [], t => t
  | op :: ops, t => sleep_run ops (sleep_apply t op)

/-- The function `enter_sleep()`: the cascade of `if` statements choosing which
`EMU_EnterEMx` call (if any) to issue.  `none` models the branches that issue
no sleep instruction (EM0 or EM1 blocked); `some k` models `EMU_EnterEMk`. -/
def enter_sleep (t : EnergyTable) : Option Nat :=
  if t 0 > 0 then none
  else if t 1 > 0 then none
  else if t 2 > 0 then some 1
  else if t 3 > 0 then some 2
  else some 3

/-- The loop body of `current_block_energy_mode()`, with the loop index `i`
made explicit because the C declaration `for(uint32_t i; i < MAX_ENERGY_MODES;
i++)` leaves `i` UNINITIALIZED: the scan starts at whatever garbage value `i`
holds.  The fuel argument bounds the number of iterations (at most
`MAX_ENERGY_MODES` consecutive iterations can run before `i < MAX_ENERGY_MODES`
fails, so fuel `MAX_ENERGY_MODES` is exact). -/
def cbemLoop (t : EnergyTable) : Nat → Nat → Nat
  | 0, _ => MAX_ENERGY_MODES - 1
  | fuel + 1, i =>
    if h : i < MAX_ENERGY_MODES then
      if t ⟨i, h⟩ ≠ 0 then i else cbemLoop t fuel (i + 1)
    else MAX_ENERGY_MODES - 1

/-- The function `current_block_energy_mode()` as written, parametrized by the value `i`
that the uninitialized loop index happens to start at. -/
def current_block_energy_mode (t : EnergyTable) (i : Nat) : Nat :=
  cbemLoop t MAX_ENERGY_MODES i

/-- The table with only EM0 blocked: `lowest_energy_mode = [1,0,0,0,0]`. -/
def tableEM0Blocked : EnergyTable := fun i => if i.val = 0 then 1 else 0

/-! ## I2C bus transaction engine — i2c.c

The six states of `enum i2c_defined_states` and the four serviced interrupt
conditions.  Each interrupt service routine mutates the static
`I2C_STATE_MACHINE i2c_sm` and performs hardware / scheduler / sleep side
effects, which we record in an `I2CFx` effect log.  `EFM_ASSERT(false)` is
modelled as `none`. -/

inductive I2C_state where
  | handshake
  | measure_cmd
  | confirm_cmd
  | RX_MS_byte
  | RX_LS_byte
  | end_comm
deriving DecidableEq

inductive I2C_cond where
  | ack
  | nack
  | rxdatav
  | mstop
deriving DecidableEq

/-- EFM32 I2C CMD register bit values (em_i2c.h hardware constants). -/
def I2C_CMD_START : Nat := 1

def I2C_CMD_STOP : Nat := 2

def I2C_CMD_ACK : Nat := 4

def I2C_CMD_NACK : Nat := 8

/-- The constant `I2C_EM_BLOCK = 2` (i2c.h): the energy mode blocked for I2C. -/
def I2C_EM_BLOCK : Nat := 2

/-- Side effects of one I2C routine: TXDATA register writes, CMD register
writes, `add_scheduled_event` calls, `sleep_unblock_mode` calls and
`sleep_block_mode` calls, each in program order. -/
structure I2CFx where
  tx : List Nat
  cmd : List Nat
  posted : List Nat
  unblocked : List Nat
  blocked : List Nat
deriving DecidableEq

def noFx : I2CFx := ⟨[], [], [], [], []⟩

/-- Concatenate two effect logs (sequential composition). -/
def fxAppend (a b : I2CFx) : I2CFx :=
  ⟨a.tx ++ b.tx, a.cmd ++ b.cmd, a.posted ++ b.posted,
   a.unblocked ++ b.unblocked, a.blocked ++ b.blocked⟩

/-- The static `I2C_STATE_MACHINE i2c_sm` (i2c.h).  `data` holds the value of
the destination word `*i2c_sm.data` (the ISRs dereference the pointer). -/
structure I2C_STATE_MACHINE where
  state : I2C_state
  slave_address : Nat
  command : Nat
  data : Nat
  read : Bool
  callback : Nat
deriving DecidableEq

/-- The routine `i2c_ack()`: the ACK interrupt service routine.  In `handshake` it sends
the command byte; in `measure_cmd` it re-selects for read with
`(slave_address << 1) | true`; in `confirm_cmd` it advances; in `RX_MS_byte`
the case body is an empty `break` (no assertion, no effect); the remaining
states hit `EFM_ASSERT(false)`. -/
def i2c_ack (m : I2C_STATE_MACHINE) : Option (I2C_STATE_MACHINE × I2CFx) :=
  match m.state with
  | .handshake => some ({m with state := .measure_cmd},
      ⟨[m.command], [], [], [], []⟩)
  | .measure_cmd => some ({m with state := .confirm_cmd},
      ⟨[(m.slave_address <<< 1) ||| 1], [I2C_CMD_START], [], [], []⟩)
  | .confirm_cmd => some ({m with state := .RX_MS_byte}, noFx)
  | .RX_MS_byte => some (m, noFx)
  | .RX_LS_byte => none
  | .end_comm => none

/-- The routine `i2c_nack()`: retries the select in `handshake` (write direction) and in
`confirm_cmd` (read direction); every other state hits `EFM_ASSERT(false)`. -/
def i2c_nack (m : I2C_STATE_MACHINE) : Option (I2C_STATE_MACHINE × I2CFx) :=
  match m.state with
  | .handshake => some (m,
      ⟨[(m.slave_address <<< 1) ||| 0], [I2C_CMD_START], [], [], []⟩)
  | .confirm_cmd => some (m,
      ⟨[(m.slave_address <<< 1) ||| 1], [I2C_CMD_START], [], [], []⟩)
  | _ => none

/-- The routine `i2c_rxdatav()`: stores the received byte.  `RX_MS_byte` does
`*i2c_sm.data |= RXDATA << 8` and issues ACK; `RX_LS_byte` does
`*i2c_sm.data |= RXDATA` and issues NACK then STOP.  Note the C code ORs
into the destination word rather than assigning it. -/
def i2c_rxdatav (rxdata : Nat) (m : I2C_STATE_MACHINE) :
    Option (I2C_STATE_MACHINE × I2CFx) :=
  match m.state with
  | .RX_MS_byte => some
      ({m with data := m.data ||| (rxdata <<< 8), state := .RX_LS_byte},
       ⟨[], [I2C_CMD_ACK], [], [], []⟩)
  | .RX_LS_byte => some
      ({m with data := m.data ||| rxdata, state := .end_comm},
       ⟨[], [I2C_CMD_NACK, I2C_CMD_STOP], [], [], []⟩)
  | _ => none

/-- The routine `i2c_mstop()`: in `end_comm` it calls `sleep_unblock_mode(I2C_EM_BLOCK)`,
posts `add_scheduled_event(event)` where `event` is the module-static set by
`i2c_open` (NOT `i2c_sm.callback`), and resets the state to `handshake`;
every other state hits `EFM_ASSERT(false)`. -/
def i2c_mstop (event : Nat) (m : I2C_STATE_MACHINE) :
    Option (I2C_STATE_MACHINE × I2CFx) :=
  match m.state with
  | .end_comm => some ({m with state := .handshake},
      ⟨[], [], [event], [I2C_EM_BLOCK], []⟩)
  | _ => none

/-- The function `i2c_start(slave_add, cmd, read_data, i2c, si7021_read_cb)`.  `busIdle`
models the `EFM_ASSERT((i2c->STATE & _I2C_STATE_MASK) == I2C_STATE_STATE_IDLE)`
check; `dest0` is the current value of the destination word `*read_data`.
On success it blocks `I2C_EM_BLOCK`, records the transaction context and
transmits `(slave_add << 1) | false` after a START. -/
def i2c_start (slave_add cmd dest0 : Nat) (busIdle : Bool) (cb : Nat) :
    Option (I2C_STATE_MACHINE × I2CFx) :=
  if busIdle then
    some (⟨.handshake, slave_add, cmd, dest0, false, cb⟩,
      ⟨[(slave_add <<< 1) ||| 0], [I2C_CMD_START], [], [], [I2C_EM_BLOCK]⟩)
  else none

/-- Dispatch of one interrupt condition to its service routine, as in
`I2C0_IRQHandler`.  `rxdata` is the RXDATA register content, `event` the
module static set by `i2c_open`. -/
def i2c_service (rxdata event : Nat) (m : I2C_STATE_MACHINE) :
    I2C_cond → Option (I2C_STATE_MACHINE × I2CFx)
  | .ack => i2c_ack m
  | .nack => i2c_nack m
  | .rxdatav => i2c_rxdatav rxdata m
  | .mstop => i2c_mstop event m

/-- Run a list of (condition, RXDATA value) interrupt steps, accumulating
effects; a fatal assertion anywhere aborts the run. -/
def i2c_run (event : Nat) :
    List (I2C_cond × Nat) → I2C_STATE_MACHINE → Option (I2C_STATE_MACHINE × I2CFx)
  | [], m => some (m, noFx)
  | (c, rx) :: rest, m =>
    match i2c_service rx event m c with
    | none => none
    | some (m1, fx1) =>
      match i2c_run event rest m1 with
      | none => none
      | some (m2, fx2) => some (m2, fxAppend fx1 fx2)

/-- One complete fault-free read transaction: `i2c_start` on an idle bus,
then the interrupt sequence ack, ack, ack, data (high byte), data (low
byte), stop — exactly the sequence a correctly functioning sensor
produces. -/
def i2c_transaction (addr cmd dest0 cb event hi lo : Nat) :
    Option (I2C_STATE_MACHINE × I2CFx) :=
  match i2c_start addr cmd dest0 true cb with
  | none => none
  | some (m, fx) =>
    match i2c_run event
        [(.ack, 0), (.ack, 0), (.ack, 0), (.rxdatav, hi), (.rxdatav, lo),
         (.mstop, 0)] m with
    | none => none
    | some (m2, fx2) => some (m2, fxAppend fx fx2)

/-- The legal (state, interrupt-condition) pairs of the transaction table in
spec section 4.3 — written from the SPEC's table, to be compared against the
code's interrupt service routines. -/
def spec_legal_pair (s : I2C_state) (c : I2C_cond) : Bool :=
  match s, c with
  | .handshake, .ack => true
  | .handshake, .nack => true
  | .measure_cmd, .ack => true
  | .confirm_cmd, .ack => true
  | .confirm_cmd, .nack => true
  | .RX_MS_byte, .rxdatav => true
  | .RX_LS_byte, .rxdatav => true
  | .end_comm, .mstop => true
  | _, _ => false

/-! ## LEUART serial framing engines — leuart.c

Transmit machine states `enum tx_leuart_defined_states {start, TXdata, stop}`
and receive machine states `enum rx_leuart_defined_states {RXstart, RXdata,
decode}`.  The static machines are zero-initialized, so `start` (resp.
`RXstart`) is the initial state. -/

inductive TX_state where
  | start
  | TXdata
  | stop
deriving DecidableEq

inductive RX_state where
  | RXstart
  | RXdata
  | decode
deriving DecidableEq

/-- The constant `LEUART_TX_EM = EM3` (leuart.h). -/
def LEUART_TX_EM : Nat := 3

/-- Write one byte into a byte array (`str[i] = v`). -/
def storeAt (f : Nat → Nat) (i v : Nat) : Nat → Nat :=
  fun j => if j = i then v else f j

/-- The LEUART IEN interrupt-enable bits touched by the two state machines,
plus the RXBLOCK state driven by the `RXBLOCKEN`/`RXBLOCKDIS` commands. -/
structure LEUART_IEN where
  txbl : Bool
  txc : Bool
  startf : Bool
  rxdatav : Bool
  sigf : Bool
  rxblock : Bool
deriving DecidableEq

/-- Scheduler / sleep side effects of one LEUART routine. -/
structure LeuartFx where
  posted : List Nat
  unblocked : List Nat
deriving DecidableEq

def noLFx : LeuartFx := ⟨[], []⟩

/-- The static `TX_LEUART_STATE_MACHINE tx_leuart_sm`.  `str` is the 64-byte
transmit buffer content. -/
structure TX_LEUART_SM where
  state : TX_state
  busy : Bool
  str : Nat → Nat
  str_len : Nat
  sent_bytes : Nat
  callback : Nat

/-- The routine `leuart_txbl()`: in `TXdata` transmits `str[sent_bytes]` (returned as the
emitted byte), increments `sent_bytes`, and when all bytes are sent disables
TXBL, enables TXC and moves to `stop`; `start` and `stop` hit
`EFM_ASSERT(false)`. -/
def leuart_txbl (sm : TX_LEUART_SM) (ien : LEUART_IEN) :
    Option (TX_LEUART_SM × LEUART_IEN × List Nat) :=
  match sm.state with
  | .TXdata =>
    let out := sm.str sm.sent_bytes
    let sent := sm.sent_bytes + 1
    if sent = sm.str_len then
      some ({sm with sent_bytes := sent, state := .stop},
        {ien with txbl := false, txc := true}, [out])
    else
      some ({sm with sent_bytes := sent}, ien, [out])
  | _ => none

/-- The routine `leuart_txc()`: in `stop` disables TXC, clears `busy`, assigns
`state = stop` (leaving the state unchanged), posts
`add_scheduled_event(tx_leuart_sm.callback)` and calls
`sleep_unblock_mode(LEUART_TX_EM)`; `start` and `TXdata` hit
`EFM_ASSERT(false)`. -/
def leuart_txc (sm : TX_LEUART_SM) (ien : LEUART_IEN) :
    Option (TX_LEUART_SM × LEUART_IEN × LeuartFx) :=
  match sm.state with
  | .stop => some ({sm with busy := false, state := .stop},
      {ien with txc := false}, ⟨[sm.callback], [LEUART_TX_EM]⟩)
  | _ => none

/-- The initial state of the static transmit machine: the zero value of
`enum tx_leuart_defined_states`, i.e. `start`, the state in which the machine
sits before any transmission and in which every transmit interrupt is a
fault.  This is the machine's idle state. -/
def tx_idle_state : TX_state := .start

/-- The static `RX_LEUART_STATE_MACHINE rx_leuart_sm`.  `str` is the 64-byte
receive accumulation buffer. -/
structure RX_LEUART_SM where
  state : RX_state
  str : Nat → Nat
  str_len : Nat
  callback : Nat

/-- The byte `'#'`, the STARTFRAME byte programmed by `leuart_open`. -/
def STARTFRAME : Nat := 35

/-- The byte `'!'`, the SIGFRAME byte programmed by `leuart_open`. -/
def SIGFRAME : Nat := 33

/-- The routine `leuart_startf()`: in `RXstart` begins collection — resets `str_len`,
stores RXDATA (the start marker) as `str[0]`, enables SIGF and RXDATAV and
issues `RXBLOCKDIS`; in `RXdata` (duplicate start marker) just resets
`str_len` to 0; `decode` hits `EFM_ASSERT(false)`. -/
def leuart_startf (rxdata : Nat) (sm : RX_LEUART_SM) (ien : LEUART_IEN) :
    Option (RX_LEUART_SM × LEUART_IEN × List Nat) :=
  match sm.state with
  | .RXstart => some
      ({sm with state := .RXdata, str := storeAt sm.str 0 rxdata, str_len := 1},
       {ien with sigf := true, rxblock := false, rxdatav := true}, [])
  | .RXdata => some ({sm with str_len := 0}, ien, [])
  | .decode => none

/-- The routine `leuart_rxdatav()`: in `RXdata` appends RXDATA at `str[str_len]` and
increments `str_len`; `RXstart` and `decode` hit `EFM_ASSERT(false)`. -/
def leuart_rxdatav (rxdata : Nat) (sm : RX_LEUART_SM) (ien : LEUART_IEN) :
    Option (RX_LEUART_SM × LEUART_IEN × List Nat) :=
  match sm.state with
  | .RXdata => some
      ({sm with
         str := storeAt sm.str sm.str_len rxdata,
         str_len := sm.str_len + 1}, ien, [])
  | _ => none

/-- The routine `leuart_sigf()`: in `RXdata` disables SIGF and RXDATAV, issues
`RXBLOCKEN`, appends the terminating `'\0'`, resets the state to `RXstart`
(the transient assignment to `decode` is immediately overwritten) and posts
`add_scheduled_event(leuart_rx_cb)`; other states hit `EFM_ASSERT(false)`.
The posted event list is returned. -/
def leuart_sigf (rx_cb : Nat) (sm : RX_LEUART_SM) (ien : LEUART_IEN) :
    Option (RX_LEUART_SM × LEUART_IEN × List Nat) :=
  match sm.state with
  | .RXdata => some
      ({sm with
         str := storeAt sm.str sm.str_len 0,
         str_len := sm.str_len + 1, state := .RXstart},
       {ien with sigf := false, rxdatav := false, rxblock := true}, [rx_cb])
  | _ => none

/-- Run one handler if its latched interrupt flag fired, threading the
machine, the IEN register and the accumulated posted-event list. -/
def rxStepIf (cond : Bool)
    (h : RX_LEUART_SM → LEUART_IEN → Option (RX_LEUART_SM × LEUART_IEN × List Nat))
    (r : RX_LEUART_SM × LEUART_IEN × List Nat) :
    Option (RX_LEUART_SM × LEUART_IEN × List Nat) :=
  if cond then
    match h r.1 r.2.1 with
    | none => none
    | some (sm, ien, p) => some (sm, ien, r.2.2 ++ p)
  else some r

/-- Hardware delivery of one received byte `b`, then the receive-side
dispatch of `LEUART0_IRQHandler`.  The interrupt flags are latched on entry
(`int_flag = IF & IEN`): STARTF fires when `b` is the start frame and STARTF
is enabled; RXDATAV fires when the byte was actually loaded into the receive
buffer (not RXBLOCKed — the start frame is loaded even when blocked, via
SFUBRX) and RXDATAV is enabled; SIGF fires when `b` is the signal frame and
SIGF is enabled.  Handlers run in the order of `LEUART0_IRQHandler`:
STARTF, RXDATAV, SIGF. -/
def leuart_rx_deliver (rx_cb b : Nat) (sm : RX_LEUART_SM) (ien : LEUART_IEN) :
    Option (RX_LEUART_SM × LEUART_IEN × List Nat) :=
  let dataLoaded := (!ien.rxblock) || (b == STARTFRAME)
  let fStartf := (b == STARTFRAME) && ien.startf
  let fRxdatav := dataLoaded && ien.rxdatav
  let fSigf := (b == SIGFRAME) && ien.sigf
  match rxStepIf fStartf (leuart_startf b) (sm, ien, []) with
  | none => none
  | some r1 =>
    match rxStepIf fRxdatav (leuart_rxdatav b) r1 with
    | none => none
    | some r2 => rxStepIf fSigf (leuart_sigf rx_cb) r2

/-- Deliver a sequence of received bytes one interrupt at a time,
accumulating all posted events. -/
def leuart_rx_run (rx_cb : Nat) :
    List Nat → RX_LEUART_SM → LEUART_IEN →
    Option (RX_LEUART_SM × LEUART_IEN × List Nat)
  | [], sm, ien => some (sm, ien, [])
  | b :: rest, sm, ien =>
    match leuart_rx_deliver rx_cb b sm ien with
    | none => none
    | some (sm1, ien1, p1) =>
      match leuart_rx_run rx_cb rest sm1 ien1 with
      | none => none
      | some (sm2, ien2, p2) => some (sm2, ien2, p1 ++ p2)

/-- The receive machine as `leuart_open` leaves it: state `RXstart`,
`str_len = 0`, buffer zeroed (static storage). -/
def rx_sm_init (rx_cb : Nat) : RX_LEUART_SM := ⟨.RXstart, fun _ => 0, 0, rx_cb⟩

/-- The IEN/RXBLOCK configuration before a reception: only STARTF enabled,
receive blocking on (as established by `leuart_open` + `RXBLOCKEN`). -/
def rx_ien_init : LEUART_IEN := ⟨false, false, true, false, false, true⟩

/-! ## BLE ring buffer — ble.c

`#define CSIZE 64`, `#define PACKET_HEADER 1`.  The struct fields follow
`BLE_CIRCULAR_BUF` in ble.h; `cbuf` is the 64-byte array.  The C read/write
pointers are `uint32_t`; the index updates mask with `size_mask`, and
`ble_circ_space` computes the 32-bit difference `write_ptr - read_ptr`
before masking, which we model with an explicit wrap `% 2 ^ 32`. -/

def CSIZE : Nat := 64

def PACKET_HEADER : Nat := 1

structure BLE_CIRCULAR_BUF where
  cbuf : Nat → Nat
  size_mask : Nat
  size : Nat
  read_ptr : Nat
  write_ptr : Nat

/-- The function `ble_circ_init()`: zeroed static array, pointers 0, size `CSIZE`,
mask `CSIZE - 1`. -/
def ble_circ_init : BLE_CIRCULAR_BUF := ⟨fun _ => 0, CSIZE - 1, CSIZE, 0, 0⟩

/-- Unsigned 32-bit subtraction `a - b` (both operands below `2 ^ 32`). -/
def sub32 (a b : Nat) : Nat := (2 ^ 32 + a - b) % 2 ^ 32

/-- The function `update_circ_wrtindex`: `write_ptr = (write_ptr + update_by) & size_mask`. -/
def update_circ_wrtindex (b : BLE_CIRCULAR_BUF) (update_by : Nat) :
    BLE_CIRCULAR_BUF :=
  {b with write_ptr := (b.write_ptr + update_by) &&& b.size_mask}

/-- The function `update_circ_readtindex`: `read_ptr = (read_ptr + update_by) & size_mask`. -/
def update_circ_readtindex (b : BLE_CIRCULAR_BUF) (update_by : Nat) :
    BLE_CIRCULAR_BUF :=
  {b with read_ptr := (b.read_ptr + update_by) &&& b.size_mask}

/-- The function `ble_circ_space()`:
`size - ((write_ptr - read_ptr) & size_mask)` with 32-bit subtraction. -/
def ble_circ_space (b : BLE_CIRCULAR_BUF) : Nat :=
  b.size - (sub32 b.write_ptr b.read_ptr &&& b.size_mask)

/-- The body of the push loop: `cbuf[write_ptr] = string[i]` then advance the
write index by 1, for each byte of the message. -/
def ble_circ_push_bytes : List Nat → BLE_CIRCULAR_BUF → BLE_CIRCULAR_BUF
  | [], b => b
  | x :: xs, b =>
    ble_circ_push_bytes xs
      (update_circ_wrtindex {b with cbuf := storeAt b.cbuf b.write_ptr x} 1)

/-- The function `ble_circ_push(string)`: `none` models the `EFM_ASSERT(false)` capacity
fault when `strlen(string) + PACKET_HEADER > ble_circ_space()`; otherwise
writes the one-byte length header `strlen(string) + PACKET_HEADER`, advances
the write index, then writes the message bytes.  `s` is the byte content of
the C string (its bytes up to, excluding, the NUL terminator). -/
def ble_circ_push (s : List Nat) (b : BLE_CIRCULAR_BUF) :
    Option BLE_CIRCULAR_BUF :=
  if s.length + PACKET_HEADER > ble_circ_space b then none
  else some (ble_circ_push_bytes s
    (update_circ_wrtindex
      {b with cbuf := storeAt b.cbuf b.write_ptr (s.length + PACKET_HEADER)}
      PACKET_HEADER))

/-- The body of the pop loop: read `cbuf[read_ptr]`, advance the read index
by 1, `n` times, returning the bytes in order. -/
def ble_circ_pop_bytes : Nat → BLE_CIRCULAR_BUF → BLE_CIRCULAR_BUF × List Nat
  | 0, b => (b, [])
  | n + 1, b =>
    let x := b.cbuf b.read_ptr
    let p := ble_circ_pop_bytes n (update_circ_readtindex b 1)
    (p.1, x :: p.2)

/-- The function `ble_circ_pop(test)`: returns the empty sentinel `true` (buffer
untouched, nothing delivered) when `leuart_busy()` or the buffer holds no
data; otherwise reads the header, advances the read index past it, copies
`header - PACKET_HEADER` bytes, appends the `'\0'` terminator and hands the
result (`print_str`) to the output sink (`leuart_start` or the test sink).
The result is (empty sentinel, new buffer state, delivered bytes). -/
def ble_circ_pop (leuartBusy : Bool) (b : BLE_CIRCULAR_BUF) :
    Bool × BLE_CIRCULAR_BUF × List Nat :=
  if leuartBusy || (ble_circ_space b == CSIZE) then (true, b, [])
  else
    let header := b.cbuf b.read_ptr
    let b1 := update_circ_readtindex b PACKET_HEADER
    let p := ble_circ_pop_bytes (header - PACKET_HEADER) b1
    (false, p.1, p.2 ++ [0])

/-! ## Theorems -/

/-- C1: `current_block_energy_mode` is claimed to scan the levels from the
shallowest (index 0) to the deepest.  The C loop index is UNINITIALIZED
(`for(uint32_t i; i < MAX_ENERGY_MODES; i++)`), so the scan starts at an
arbitrary garbage value: with only EM0 blocked, the intended scan (from 0)
returns 0, while the written loop starting at garbage value 1 skips index 0
and returns `MAX_ENERGY_MODES - 1 = 4` instead — contradicting the
function's own doc comment ("Iterates through the static array … first
nonzero value"). -/
theorem c1_uninitialized_scan_divergence :
    current_block_energy_mode tableEM0Blocked 0 = 0 ∧
    current_block_energy_mode tableEM0Blocked 1 = MAX_ENERGY_MODES - 1 ∧
    (0 : Nat) ≠ MAX_ENERGY_MODES - 1 := by
  decide

/-- Both arbiter calls keep every entry of the table non-negative. -/
theorem sleep_apply_nonneg (t : EnergyTable) (h : ∀ i, 0 ≤ t i)
    (op : SleepOp) : ∀ i, 0 ≤ sleep_apply t op i := by
  intro i
  cases op with
  | block EM =>
    simp only [sleep_apply, sleep_block_mode, Function.update_apply]
    split
    · have := h EM; omega
    · exact h i
  | unblock EM =>
    simp only [sleep_apply, sleep_unblock_mode]
    split
    · rename_i hpos
      simp only [Function.update_apply]
      split
      · omega
      · exact h i
    · exact h i

/-- Non-negativity is preserved along any call sequence. -/
theorem sleep_run_nonneg (ops : List SleepOp) (t : EnergyTable)
    (h : ∀ i, 0 ≤ t i) : ∀ i, 0 ≤ sleep_run ops t i := by
  induction ops generalizing t with
  | nil => exact h
  | cons op ops ih => exact ih _ (sleep_apply_nonneg t h op)

/-- C9: every entry of the block table stays non-negative in every state
reachable by block/unblock sequences from the initial table, and
`sleep_unblock_mode` decrements only a positive count — on a zero count the
table is left unchanged. -/
theorem sleep_table_never_negative :
    (∀ (ops : List SleepOp) (i : Fin 5), 0 ≤ sleep_run ops sleep_open i) ∧
    (∀ (t : EnergyTable) (i : Fin 5), t i = 0 → sleep_unblock_mode i t = t) ∧
    (∀ (t : EnergyTable) (i : Fin 5), 0 < t i →
      sleep_unblock_mode i t = Function.update t i (t i - 1)) := by
  refine ⟨fun ops i => sleep_run_nonneg ops sleep_open (fun _ => le_refl 0) i,
    fun t i h => ?_, fun t i h => ?_⟩
  · simp [sleep_unblock_mode, h]
  · simp [sleep_unblock_mode, h]

/-- Witness for C9 at concrete inputs: the run
`block EM2; unblock EM2; unblock EM2` leaves EM2's count non-negative, and
unblocking EM2 of the fresh table (count 0) is a no-op. -/
theorem sleep_table_never_negative_witness :
    0 ≤ sleep_run [SleepOp.block 2, SleepOp.unblock 2, SleepOp.unblock 2]
        sleep_open 2 ∧
    sleep_unblock_mode 2 sleep_open = sleep_open ∧
    sleep_unblock_mode 2 (sleep_block_mode 2 sleep_open) =
      Function.update (sleep_block_mode 2 sleep_open) 2
        (sleep_block_mode 2 sleep_open 2 - 1) :=
  ⟨sleep_table_never_negative.1 _ 2,
   sleep_table_never_negative.2.1 sleep_open 2 (by decide),
   sleep_table_never_negative.2.2 _ 2 (by decide)⟩

/-- C10: `enter_sleep` never instructs the hardware to go deeper than EM3:
a nonzero EM0 or EM1 count issues no sleep instruction, a nonzero EM2 count
enters EM1, a nonzero EM3 count enters EM2, otherwise it enters EM3; no
branch ever enters EM4. -/
theorem enter_sleep_caps_at_EM3 (t : EnergyTable) :
    ((0 < t 0 ∨ 0 < t 1) → enter_sleep t = none) ∧
    (t 0 ≤ 0 → t 1 ≤ 0 → 0 < t 2 → enter_sleep t = some 1) ∧
    (t 0 ≤ 0 → t 1 ≤ 0 → t 2 ≤ 0 → 0 < t 3 → enter_sleep t = some 2) ∧
    (t 0 ≤ 0 → t 1 ≤ 0 → t 2 ≤ 0 → t 3 ≤ 0 → enter_sleep t = some 3) ∧
    (∀ m, enter_sleep t = some m → m ≤ 3) := by
  unfold enter_sleep
  refine ⟨?_, ?_, ?_, ?_, ?_⟩ <;> split_ifs <;> simp_all

/-- Witness for C10: with only EM2 blocked the processor is sent to EM1. -/
theorem enter_sleep_caps_at_EM3_witness :
    enter_sleep (fun i => if i.val = 2 then 1 else 0) = some 1 :=
  (enter_sleep_caps_at_EM3 (fun i => if i.val = 2 then 1 else 0)).2.1
    (by decide) (by decide) (by decide)

/-- C2 counterexample: an acknowledge condition in the receive-high-byte
state (`RX_MS_byte`) is NOT a legal pair of the spec's table, yet `i2c_ack`
does not signal a fatal assertion there — its `case RX_MS_byte` body is an
empty `break`, so the condition is silently ignored: the machine and the
effect log are returned unchanged. -/
theorem c2_ack_in_rx_high_byte_is_ignored :
    spec_legal_pair .RX_MS_byte .ack = false ∧
    i2c_service 0 0 ⟨.RX_MS_byte, 64, 243, 0, false, 8⟩ .ack =
      some (⟨.RX_MS_byte, 64, 243, 0, false, 8⟩, noFx) := by
  decide

/-- C2 amended: every (state, condition) pair outside the spec's legal
table hits `EFM_ASSERT(false)`, EXCEPT an acknowledge in the
receive-high-byte state, which is silently ignored (no state change, no
effect). -/
theorem i2c_illegal_pairs_fault (m : I2C_STATE_MACHINE) (c : I2C_cond)
    (rx ev : Nat) (h : spec_legal_pair m.state c = false) :
    i2c_service rx ev m c = none ∨
    (m.state = .RX_MS_byte ∧ c = .ack ∧
      i2c_service rx ev m c = some (m, noFx)) := by
  cases m with
  | mk s sa co d rd cb =>
    cases s <;> cases c <;>
      simp_all [i2c_service, i2c_ack, i2c_nack, i2c_rxdatav, i2c_mstop,
        spec_legal_pair]

/-- Witness for the amended C2 at a concrete illegal pair: a data-available
condition while in `handshake` is fatal. -/
theorem i2c_illegal_pairs_fault_witness :
    i2c_service 0 0 ⟨.handshake, 64, 243, 0, false, 8⟩ .rxdatav = none ∨
    ((⟨.handshake, 64, 243, 0, false, 8⟩ : I2C_STATE_MACHINE).state =
        .RX_MS_byte ∧ I2C_cond.rxdatav = .ack ∧
      i2c_service 0 0 ⟨.handshake, 64, 243, 0, false, 8⟩ .rxdatav =
        some (⟨.handshake, 64, 243, 0, false, 8⟩, noFx)) :=
  i2c_illegal_pairs_fault ⟨.handshake, 64, 243, 0, false, 8⟩ .rxdatav 0 0
    (by decide)

/-- C4 counterexample: a transaction whose `i2c_start` call supplies
completion event bit 2 while the module-static `event` recorded at
`i2c_open` is 1: the stop condition in `end_comm` posts `[1]` (the open-time
`event`), not `[2]`, even though the start-time callback 2 was duly recorded
in the transaction context. -/
theorem c4_posts_open_event_not_start_callback :
    (i2c_transaction 64 243 0 2 1 0 0).map (fun r => r.2.posted) =
      some [1] ∧
    (i2c_transaction 64 243 0 2 1 0 0).map (fun r => r.1.callback) =
      some 2 ∧
    ([1] : List Nat) ≠ [2] := by
  decide

/-- C4 amended: when the stop condition is observed in the done state
(`end_comm`), the engine unblocks the I2C power level, posts exactly the
completion event bit registered at `i2c_open` (the module-static `event`,
not the callback supplied to `i2c_start`), and returns the machine to the
idle state `handshake`. -/
theorem i2c_stop_completes_transaction
    (addr cmd dest0 cb ev hi lo : Nat) :
    (i2c_transaction addr cmd dest0 cb ev hi lo).map
      (fun r => (r.1.state, r.2.posted, r.2.unblocked)) =
    some (.handshake, [ev], [I2C_EM_BLOCK]) := rfl

/-- C5 counterexample: with the destination word holding 0xFFFF before the
transaction and both received bytes 0, the C `|=` leaves the destination at
0xFFFF, not `(0 << 8) | 0 = 0` as the claim ("regardless of the destination
word's contents before the transaction") requires. -/
theorem c5_destination_word_keeps_stale_bits :
    (i2c_transaction 64 243 65535 8 8 0 0).map (fun r => r.1.data) =
      some 65535 ∧
    (((0 : Nat) <<< 8) ||| 0) = 0 ∧ (65535 : Nat) ≠ 0 := by
  decide

/-- C5 amended: `i2c_start` transmits `(address << 1) | 0` (write
direction), the command byte, then `(address << 1) | 1` (read direction on
re-select); the two received bytes are OR-ed into the destination word, so
the destination ends as `old | (high << 8) | low` — equal to
`(high << 8) | low` exactly when the word was zero beforehand. -/
theorem i2c_transaction_numeric_semantics
    (addr cmd dest0 cb ev hi lo : Nat) :
    (i2c_transaction addr cmd dest0 cb ev hi lo).map
      (fun r => (r.2.tx, r.1.data)) =
    some ([(addr <<< 1) ||| 0, cmd, (addr <<< 1) ||| 1],
      (dest0 ||| (hi <<< 8)) ||| lo) ∧
    (i2c_transaction addr cmd 0 cb ev hi lo).map (fun r => r.1.data) =
      some ((hi <<< 8) ||| lo) := by
  refine ⟨rfl, ?_⟩
  show some ((0 ||| (hi <<< 8)) ||| lo) = some ((hi <<< 8) ||| lo)
  simp

/-- C7 counterexample: on the transfer-complete interrupt in the completing
state (`stop`), `leuart_txc` disables TXC, clears `busy`, posts the
completion event and unblocks the power level — but the state variable is
assigned `stop` again: the machine does NOT return to its idle state
(`start`, the initial value of the zero-initialized static machine, in which
every transmit interrupt is a fault). -/
theorem c7_tx_machine_stays_in_stop :
    (leuart_txc ⟨.stop, true, fun _ => 0, 1, 1, 32⟩
        ⟨false, true, false, false, false, true⟩).map
      (fun r => (r.1.state, r.1.busy, r.2.1.txc, r.2.2)) =
    some (.stop, false, false, ⟨[32], [LEUART_TX_EM]⟩) ∧
    TX_state.stop ≠ tx_idle_state := by
  decide

/-- C7 amended: on the transfer-complete interrupt in the completing state
the engine disables the transfer-complete interrupt, clears the busy flag
(the sole idleness indicator gating new transmissions), unblocks the
transmit power level and posts the transmit-completion event; the state
variable remains at the completing state `stop` rather than returning to the
initial idle state. -/
theorem leuart_txc_completes (sm : TX_LEUART_SM) (ien : LEUART_IEN)
    (h : sm.state = .stop) :
    leuart_txc sm ien =
      some ({sm with busy := false}, {ien with txc := false},
        ⟨[sm.callback], [LEUART_TX_EM]⟩) := by
  cases sm
  simp_all [leuart_txc]

/-- Witness for the amended C7 at a concrete machine. -/
theorem leuart_txc_completes_witness :
    leuart_txc ⟨.stop, true, fun _ => 0, 1, 1, 32⟩
        ⟨false, true, false, false, false, true⟩ =
      some ({(⟨.stop, true, fun _ => 0, 1, 1, 32⟩ : TX_LEUART_SM) with
               busy := false},
        {(⟨false, true, false, false, false, true⟩ : LEUART_IEN) with
           txc := false},
        ⟨[(⟨.stop, true, fun _ => 0, 1, 1, 32⟩ : TX_LEUART_SM).callback],
         [LEUART_TX_EM]⟩) :=
  leuart_txc_completes _ _ rfl

/-- C8: delivering the bytes `a # H e l l o ! d e f` to the receive engine
from idle leaves the accumulation buffer holding the NUL-terminated
`#Hello!` (bytes 35,72,101,108,108,111,33,0 with `str_len = 8`), posts the
receive-completion event exactly once, and the engine ends back in the idle
configuration (`RXstart`, STARTF-only interrupts, receive blocking on):
the leading `a` (blocked, pre-start-marker) and the trailing `d e f`
(blocked again after the end marker) are discarded. -/
theorem leuart_rx_framing_scenario (rx_cb : Nat) :
    (leuart_rx_run rx_cb [97, 35, 72, 101, 108, 108, 111, 33, 100, 101, 102]
        (rx_sm_init rx_cb) rx_ien_init).map
      (fun r => (r.1.state, r.1.str_len, (List.range 8).map r.1.str,
        r.2.1, r.2.2)) =
    some (.RXstart, 8, [35, 72, 101, 108, 108, 111, 33, 0],
      rx_ien_init, [rx_cb]) := rfl

/-- Masking with `size_mask = 63` is reduction mod the capacity 64. -/
theorem and63 (a : Nat) : a &&& 63 = a % 64 := by
  have h := Nat.and_pow_two_sub_one_eq_mod a 6
  norm_num at h
  exact h

/-- The 32-bit wrap in `ble_circ_space` is invisible modulo the capacity:
`64` divides `2 ^ 32`. -/
theorem sub32_mod64 (a b : Nat) : sub32 a b % 64 = (2 ^ 32 + a - b) % 64 := by
  unfold sub32
  exact Nat.mod_mod_of_dvd _ (by norm_num)

/-- The buffer is empty exactly when the pointers agree modulo nothing:
`ble_circ_space` of a buffer with equal pointers and the standard fields is
the full capacity. -/
theorem ble_circ_space_empty (c : Nat → Nat) (p : Nat) :
    ble_circ_space ⟨c, CSIZE - 1, CSIZE, p, p⟩ = CSIZE := by
  show CSIZE - (sub32 p p &&& 63) = CSIZE
  rw [and63, sub32_mod64]
  simp

set_option maxRecDepth 4000 in
/-- C6 counterexample: from the freshly initialized (empty) buffer a
63-byte message is accepted — `available_space` is the full capacity 64 and
the push condition is `>` — even though `63 + PACKET_HEADER = 64` exceeds
`CSIZE - 1 = 63`.  (The accepted packet fills all 64 cells, after which
`ble_circ_space` reads 64 again: the full buffer is indistinguishable from
an empty one.) -/
theorem c6_full_capacity_message_accepted :
    (ble_circ_push (List.replicate 63 7) ble_circ_init).isSome = true ∧
    63 + PACKET_HEADER > CSIZE - 1 ∧
    (ble_circ_push (List.replicate 63 7) ble_circ_init).map ble_circ_space =
      some CSIZE := by
  refine ⟨rfl, by decide, rfl⟩

/-- C6 amended: `ble_circ_push` faults (fatal assertion) if and only if the
message length plus the 1-byte header exceeds `ble_circ_space()`; since the
space never exceeds the capacity, every accepted message satisfies
`length + header ≤ CSIZE` (the bound `CSIZE - 1` of the claim is off by
one: an empty buffer reports space `CSIZE`). -/
theorem ble_circ_push_capacity_fault (s : List Nat) (b : BLE_CIRCULAR_BUF)
    (hsize : b.size = CSIZE) :
    (ble_circ_push s b = none ↔
      s.length + PACKET_HEADER > ble_circ_space b) ∧
    (ble_circ_push s b ≠ none → s.length + PACKET_HEADER ≤ CSIZE) := by
  have hsp : ble_circ_space b ≤ CSIZE := by
    rw [ble_circ_space, hsize]
    exact Nat.sub_le _ _
  constructor
  · unfold ble_circ_push
    split
    · simp_all
    · simp_all
  · intro hsome
    unfold ble_circ_push at hsome
    by_cases hgt : s.length + PACKET_HEADER > ble_circ_space b
    · simp [hgt] at hsome
    · omega

/-- Witness for the amended C6: pushing a 3-byte message onto the fresh
buffer does not fault, and the bounds hold. -/
theorem ble_circ_push_capacity_fault_witness :
    (ble_circ_push [1, 2, 3] ble_circ_init = none ↔
      (3 : Nat) + PACKET_HEADER > ble_circ_space ble_circ_init) ∧
    (ble_circ_push [1, 2, 3] ble_circ_init ≠ none →
      (3 : Nat) + PACKET_HEADER ≤ CSIZE) :=
  ble_circ_push_capacity_fault [1, 2, 3] ble_circ_init rfl

/-- Subtraction `sub32` of equal operands is zero. -/
theorem sub32_self (a : Nat) : sub32 a a = 0 := by
  unfold sub32
  omega

/-- Behaviour of the push loop on a buffer with the standard mask: the
read pointer, size and mask are untouched, the write pointer advances by the
message length mod 64, cells outside the written window keep their old
content, and cell `(w + i) % 64` receives byte `i` of the message (the
window positions are pairwise distinct as long as at most 64 bytes are
written). -/
theorem ble_circ_push_bytes_spec (xs : List Nat) :
    ∀ (cb : Nat → Nat) (sz r w : Nat), w < 64 →
      (ble_circ_push_bytes xs ⟨cb, 63, sz, r, w⟩).read_ptr = r ∧
      (ble_circ_push_bytes xs ⟨cb, 63, sz, r, w⟩).size = sz ∧
      (ble_circ_push_bytes xs ⟨cb, 63, sz, r, w⟩).size_mask = 63 ∧
      (ble_circ_push_bytes xs ⟨cb, 63, sz, r, w⟩).write_ptr =
        (w + xs.length) % 64 ∧
      (∀ j, (∀ i, i < xs.length → j ≠ (w + i) % 64) →
        (ble_circ_push_bytes xs ⟨cb, 63, sz, r, w⟩).cbuf j = cb j) ∧
      (xs.length ≤ 64 → ∀ i, i < xs.length →
        (ble_circ_push_bytes xs ⟨cb, 63, sz, r, w⟩).cbuf ((w + i) % 64) =
          xs.getD i 0) := by
  induction xs with
  | nil =>
    intro cb sz r w hw
    refine ⟨rfl, rfl, rfl, ?_, fun j _ => rfl, ?_⟩
    · simp [ble_circ_push_bytes, Nat.mod_eq_of_lt hw]
    · intro _ i hi
      simp at hi
  | cons x xs ih =>
    intro cb sz r w hw
    have hw1 : (w + 1) % 64 < 64 := Nat.mod_lt _ (by norm_num)
    have hstep : ble_circ_push_bytes (x :: xs) ⟨cb, 63, sz, r, w⟩ =
        ble_circ_push_bytes xs ⟨storeAt cb w x, 63, sz, r, (w + 1) % 64⟩ := by
      simp [ble_circ_push_bytes, update_circ_wrtindex, and63]
    obtain ⟨hA, hB, hC, hD, hE, hF⟩ :=
      ih (storeAt cb w x) sz r ((w + 1) % 64) hw1
    rw [hstep]
    refine ⟨hA, hB, hC, ?_, ?_, ?_⟩
    · rw [hD]
      simp only [List.length_cons]
      omega
    · intro j hj
      have hj0 : j ≠ w := fun heq =>
        hj 0 (by simp) (by rw [heq]; omega)
      have hj' : ∀ i, i < xs.length → j ≠ ((w + 1) % 64 + i) % 64 := by
        intro i hi heq
        exact hj (i + 1) (by simp only [List.length_cons]; omega)
          (by rw [heq]; omega)
      rw [hE j hj']
      simp [storeAt, hj0]
    · intro h64 i hi
      simp only [List.length_cons] at h64 hi
      cases i with
      | zero =>
        have hun : ∀ i, i < xs.length → w ≠ ((w + 1) % 64 + i) % 64 := by
          intro i hi2 heq
          omega
        rw [show (w + 0) % 64 = w by omega, hE _ hun]
        simp [storeAt]
      | succ j =>
        rw [show (w + (j + 1)) % 64 = ((w + 1) % 64 + j) % 64 by omega]
        rw [hF (by omega) j (by omega)]
        simp

/-- Behaviour of the pop loop on a buffer with the standard mask: the
contents, size, mask and write pointer are untouched, the read pointer
advances by `n` mod 64, and the returned bytes are the cells
`(r + i) % 64` in order. -/
theorem ble_circ_pop_bytes_spec (n : Nat) :
    ∀ (cb : Nat → Nat) (sz r w : Nat), r < 64 →
      (ble_circ_pop_bytes n ⟨cb, 63, sz, r, w⟩).1.cbuf = cb ∧
      (ble_circ_pop_bytes n ⟨cb, 63, sz, r, w⟩).1.size = sz ∧
      (ble_circ_pop_bytes n ⟨cb, 63, sz, r, w⟩).1.size_mask = 63 ∧
      (ble_circ_pop_bytes n ⟨cb, 63, sz, r, w⟩).1.write_ptr = w ∧
      (ble_circ_pop_bytes n ⟨cb, 63, sz, r, w⟩).1.read_ptr = (r + n) % 64 ∧
      (ble_circ_pop_bytes n ⟨cb, 63, sz, r, w⟩).2 =
        (List.range n).map (fun i => cb ((r + i) % 64)) := by
  induction n with
  | zero =>
    intro cb sz r w hr
    exact ⟨rfl, rfl, rfl, rfl, by simp [ble_circ_pop_bytes,
      Nat.mod_eq_of_lt hr], rfl⟩
  | succ n ih =>
    intro cb sz r w hr
    have hstep : ble_circ_pop_bytes (n + 1) ⟨cb, 63, sz, r, w⟩ =
        ((ble_circ_pop_bytes n ⟨cb, 63, sz, (r + 1) % 64, w⟩).1,
          cb r :: (ble_circ_pop_bytes n ⟨cb, 63, sz, (r + 1) % 64, w⟩).2) := by
      simp [ble_circ_pop_bytes, update_circ_readtindex, and63]
    obtain ⟨hA, hB, hC, hD, hE, hG⟩ :=
      ih cb sz ((r + 1) % 64) w (Nat.mod_lt _ (by norm_num))
    rw [hstep]
    refine ⟨hA, hB, hC, hD, ?_, ?_⟩
    · rw [hE]
      omega
    · rw [hG]
      apply List.ext_getElem
      · simp
      · intro i hi1 hi2
        cases i with
        | zero =>
          simp only [List.getElem_cons_zero, List.getElem_map,
            List.getElem_range]
          congr 1
          omega
        | succ j =>
          simp only [List.getElem_cons_succ, List.getElem_map,
            List.getElem_range]
          congr 1
          omega

/-- C3: pushing any message of fewer than `CSIZE - 1` bytes onto an empty
ring buffer (equal pointers, arbitrary prior contents, arbitrary position)
and popping with an idle transmitter succeeds, delivers exactly the message
bytes followed by the NUL terminator to the output sink, and returns the
buffer to empty (`ble_circ_space = CSIZE`). -/
theorem ble_ring_buffer_round_trip (M : List Nat) (c : Nat → Nat) (p : Nat)
    (hp : p < CSIZE) (hlen : M.length < CSIZE - 1) :
    ∃ b', ble_circ_push M ⟨c, CSIZE - 1, CSIZE, p, p⟩ = some b' ∧
      (ble_circ_pop false b').1 = false ∧
      (ble_circ_pop false b').2.2 = M ++ [0] ∧
      ble_circ_space (ble_circ_pop false b').2.1 = CSIZE := by
  have hp' : p < 64 := hp
  have hlen' : M.length < 63 := hlen
  have hw1 : (p + 1) % 64 < 64 := Nat.mod_lt _ (by norm_num)
  obtain ⟨hA, hB, hC, hD, hE, hF⟩ :=
    ble_circ_push_bytes_spec M (storeAt c p (M.length + 1)) 64 p
      ((p + 1) % 64) hw1
  set bp := ble_circ_push_bytes M
    ⟨storeAt c p (M.length + 1), 63, 64, p, (p + 1) % 64⟩ with hbp
  have hsp0 : ble_circ_space ⟨c, CSIZE - 1, CSIZE, p, p⟩ = CSIZE :=
    ble_circ_space_empty c p
  have hpush : ble_circ_push M ⟨c, CSIZE - 1, CSIZE, p, p⟩ = some bp := by
    unfold ble_circ_push
    rw [if_neg (by rw [hsp0]; show ¬(M.length + 1 > 64); omega)]
    congr 1
    rw [hbp]
    congr 1
    show update_circ_wrtindex ⟨storeAt c p (M.length + 1), 63, 64, p, p⟩ 1 = _
    simp [update_circ_wrtindex, and63]
  -- space of the pushed buffer
  have hspbp : ble_circ_space bp = 63 - M.length := by
    show bp.size - (sub32 bp.write_ptr bp.read_ptr &&& bp.size_mask) = _
    rw [hA, hB, hC, hD, and63, sub32_mod64]
    omega
  have hcond : ¬((false || (ble_circ_space bp == CSIZE)) = true) := by
    rw [hspbp]
    show ¬((false || (63 - M.length == 64)) = true)
    simp only [Bool.false_or, beq_iff_eq]
    omega
  -- the header cell was not overwritten by the message bytes
  have hheader : bp.cbuf p = M.length + 1 := by
    rw [hE p (by intro i hi heq; omega)]
    simp [storeAt]
  -- the read-index advance past the header, as a literal buffer
  have hb1 : update_circ_readtindex bp PACKET_HEADER =
      ⟨bp.cbuf, 63, bp.size, (p + 1) % 64, bp.write_ptr⟩ := by
    unfold update_circ_readtindex
    rw [PACKET_HEADER, hA, hC, and63]
  obtain ⟨g1, g2, g3, g4, g5, g6⟩ :=
    ble_circ_pop_bytes_spec M.length bp.cbuf bp.size ((p + 1) % 64)
      bp.write_ptr hw1
  have hpop : ble_circ_pop false bp =
      (false,
        (ble_circ_pop_bytes M.length
          ⟨bp.cbuf, 63, bp.size, (p + 1) % 64, bp.write_ptr⟩).1,
        (ble_circ_pop_bytes M.length
          ⟨bp.cbuf, 63, bp.size, (p + 1) % 64, bp.write_ptr⟩).2 ++ [0]) := by
    unfold ble_circ_pop
    rw [if_neg hcond]
    rw [hA, hheader, hb1]
    simp [PACKET_HEADER]
  refine ⟨bp, hpush, ?_, ?_, ?_⟩
  · rw [hpop]
  · rw [hpop, g6]
    show _ ++ [0] = M ++ [0]
    congr 1
    apply List.ext_getElem
    · simp
    · intro i hi1 hi2
      simp only [List.length_map, List.length_range] at hi1
      simp only [List.getElem_map, List.getElem_range]
      rw [hF (by omega) i hi1]
      simp [List.getD_eq_getElem?_getD, List.getElem?_eq_getElem hi2]
  · rw [hpop]
    show (ble_circ_pop_bytes M.length _).1.size -
      (sub32 (ble_circ_pop_bytes M.length _).1.write_ptr
        (ble_circ_pop_bytes M.length _).1.read_ptr &&&
        (ble_circ_pop_bytes M.length _).1.size_mask) = CSIZE
    rw [g2, g3, g4, g5, hB, hD, and63, sub32_mod64]
    simp only [CSIZE]
    omega

/-- Witness for C3: the two-byte message `[72, 105]` ("Hi") round-trips
through the fresh zeroed buffer. -/
theorem ble_ring_buffer_round_trip_witness :
    ∃ b', ble_circ_push [72, 105]
        ⟨fun _ => 0, CSIZE - 1, CSIZE, 0, 0⟩ = some b' ∧
      (ble_circ_pop false b').1 = false ∧
      (ble_circ_pop false b').2.2 = [72, 105] ++ [0] ∧
      ble_circ_space (ble_circ_pop false b').2.1 = CSIZE :=
  ble_ring_buffer_round_trip [72, 105] (fun _ => 0) 0 (by decide) (by decide)

end EmbeddedSW
